/-
  Verification of the cypherpunk-quotes-bot repository.

  Shallow embedding of the quote-selection, event-composition and
  multi-relay publication pipeline from:
    - src/bot/index.ts   (scheduled bot script; the later revision in the file)
    - src/src/lib/botService.ts (dashboard variant)
    - src/src/lib/quotes.ts

  JavaScript strings are modeled as Lean `String`, arrays as `List`,
  `Math.floor(Math.random() * n)` as an arbitrary natural parameter taken
  mod `n`, and network relay attempts as explicit per-relay outcome inputs.
-/
import Mathlib

namespace CypherpunkBot

/-! ### JS string primitives used by the source -/

/-- Models JS `String.prototype.toLowerCase` (ASCII range, as in the data). -/
def jsToLower (s : String) : String :=
  String.mk (s.data.map Char.toLower)

/-- Models JS `String.prototype.trim`: drop whitespace at both ends. -/
def jsTrim (s : String) : String :=
  String.mk (((s.data.dropWhile Char.isWhitespace).reverse.dropWhile Char.isWhitespace).reverse)

/-- Models JS `String.prototype.startsWith`. -/
def jsStartsWith (s pat : String) : Bool :=
  pat.data.isPrefixOf s.data

/-- Models JS `String.prototype.endsWith`. -/
def jsEndsWith (s pat : String) : Bool :=
  pat.data.isSuffixOf s.data

/-- Substring test on character lists: some split point carries `pat`. -/
def listContainsSub (l pat : List Char) : Bool :=
  (List.range (l.length + 1)).any (fun i => pat.isPrefixOf (l.drop i))

/-- Models JS `String.prototype.includes`. -/
def jsIncludes (s pat : String) : Bool :=
  listContainsSub s.data pat.data

/-- Deduplication with an explicit list of already-seen elements. -/
def dedupFirstAux (seen : List String) : List String → List String
  | [] => []
  | x :: xs =>
    if seen.contains x then dedupFirstAux seen xs
    else x :: dedupFirstAux (x :: seen) xs

/-- Models the JS spread `[...new Set(l)]`: deduplicate keeping the first
occurrence of each element, preserving insertion order. -/
def dedupFirst (l : List String) : List String :=
  dedupFirstAux [] l

/-- Models JS `Array.prototype.slice(-n)` (for `n > 0`): the last
`min n l.length` elements in order. -/
def lastN (n : Nat) (l : List α) : List α :=
  l.drop (l.length - n)

/-! ### Data model (interfaces Quote / BotState from the source) -/

/-- Embeds `interface Quote` of src/bot/index.ts and src/src/lib/quotes.ts. -/
structure Quote where
  id : String
  text : String
  author : String
  source : Option String
  year : Option Nat
  tags : List String
deriving Repr, DecidableEq

/-- Embeds `interface BotState` of src/bot/index.ts and src/src/lib/botService.ts. -/
structure BotState where
  recentQuoteIds : List String
  lastPostTimestamp : Nat
  totalPostsCount : Nat
deriving Repr, DecidableEq

/-- Embeds `interface BotConfig` of src/src/lib/botService.ts. -/
structure BotConfig where
  relays : List String
  intervalHours : Nat
  hashtags : List String
deriving Repr, DecidableEq

/-- Embeds `DEFAULT_BOT_CONFIG` of src/src/lib/botService.ts. -/
def DEFAULT_BOT_CONFIG : BotConfig :=
  { relays := ["wss://relay.damus.io", "wss://relay.nostr.band", "wss://nos.lol",
               "wss://relay.primal.net", "wss://relay.ditto.pub"]
    intervalHours := 8
    hashtags := ["cypherpunk", "bitcoin", "privacy", "freedom"] }

/-! ### Hashtag normalization (src/bot/index.ts, normalizeHashtag) -/

/-- Embeds `normalizeHashtag` of src/bot/index.ts:
`tag.toLowerCase().replace(/[-\s]/g, '')` — lowercase, then delete every
hyphen and whitespace character. -/
def normalizeHashtag (tag : String) : String :=
  String.mk ((tag.data.map Char.toLower).filter
    (fun c => !(c == '-' || c.isWhitespace)))

/-! ### Quote selection (src/bot/index.ts, getRandomQuote)

`getRecentPostedQuoteIds` is network I/O; its (already deduplicated) result
enters here as the `nostrQuoteIds` argument, exactly as the claim quantifies
over "every network-derived recent-id list".  `Math.floor(Math.random() * n)`
is modeled by an arbitrary natural `r` reduced mod `n`; as `r` ranges over
the naturals the index ranges uniformly over all positions. -/

/-- Embeds `getRandomQuote` of src/bot/index.ts (the revision with the Nostr query):
union state-file ids with network ids, exclude the last 100 of the
deduplicated union, pick among the survivors; if none survive, pick from the
full dataset. -/
def getRandomQuote (quotes : List Quote) (recentIds nostrQuoteIds : List String)
    (r : Nat) : Option Quote :=
  let allRecentIds := dedupFirst (recentIds ++ nostrQuoteIds)
  let recentSet := lastN 100 allRecentIds
  let availableQuotes := quotes.filter (fun q => !(recentSet.contains q.id))
  if availableQuotes.length = 0 then
    quotes[r % quotes.length]?
  else
    availableQuotes[r % availableQuotes.length]?

/-! ### Event composition (src/bot/index.ts formatQuote / generateTags,
src/src/lib/quotes.ts formatQuoteForNostr,
src/src/lib/botService.ts formatQuoteWithHashtags / generateQuoteTags) -/

/-- The attribution suffix shared by both composers: JS
`if (quote.source && quote.year) ... else if (quote.source) ... else if
(quote.year) ...` — JS truthiness makes `""` and `0` count as absent. -/
def sourceYearSuffix (source : Option String) (year : Option Nat) : String :=
  match source, year with
  | some s, some y =>
    if s ≠ "" && y != 0 then " (" ++ s ++ ", " ++ toString y ++ ")"
    else if s ≠ "" then " (" ++ s ++ ")"
    else if y != 0 then " (" ++ toString y ++ ")"
    else ""
  | some s, none => if s ≠ "" then " (" ++ s ++ ")" else ""
  | none, some y => if y != 0 then " (" ++ toString y ++ ")" else ""
  | none, none => ""

/-- Embeds `formatQuote` of src/bot/index.ts (quote-only hashtag revision): quoted
text, blank line, em-dash + author + attribution, and — only when the quote
has tags — a blank line and the normalized hashtag line. -/
def formatQuote (quote : Quote) : String :=
  let content := "\"" ++ quote.text ++ "\""
  let content := content ++ "\n\n— " ++ quote.author
  let content := content ++ sourceYearSuffix quote.source quote.year
  if quote.tags.length > 0 then
    let normalizedTags := quote.tags.map normalizeHashtag
    content ++ "\n\n" ++ String.intercalate " " (normalizedTags.map (fun t => "#" ++ t))
  else
    content

/-- Embeds `formatQuoteForNostr` of src/src/lib/quotes.ts: the same base text with
no hashtag line at all. -/
def formatQuoteForNostr (quote : Quote) : String :=
  "\"" ++ quote.text ++ "\"" ++ "\n\n— " ++ quote.author
    ++ sourceYearSuffix quote.source quote.year

/-- Embeds `formatQuoteWithHashtags` of src/src/lib/botService.ts: base text, then
always a blank line and hashtags from
`[...new Set([...config.hashtags, ...quote.tags.slice(0, 3)])]`. -/
def formatQuoteWithHashtags (quote : Quote) (config : BotConfig) : String :=
  let content := formatQuoteForNostr quote
  let allTags := dedupFirst (config.hashtags ++ quote.tags.take 3)
  let hashtagString := String.intercalate " " (allTags.map (fun t => "#" ++ t))
  content ++ "\n\n" ++ hashtagString

/-- Embeds `generateTags` of src/bot/index.ts (quote-only revision): normalized
`t` tags from the quote, a normalized author `t` tag, the `quote_id`
cross-reference tag, and the `client` tag. -/
def generateTags (quote : Quote) : List (List String) :=
  (quote.tags.map (fun tag => ["t", normalizeHashtag tag]))
    ++ [["t", normalizeHashtag quote.author]]
    ++ [["quote_id", quote.id]]
    ++ [["client", "Cypherpunk Quotes Bot"]]

/-- JS `author.toLowerCase().replace(/\s+/g, '-')`: lowercase, then collapse
every maximal whitespace run into a single hyphen.  The boolean argument
records whether the previous character was part of a whitespace run. -/
def collapseWsToDash : Bool → List Char → List Char
  | _, [] => []
  | prevWs, c :: rest =>
    if c.isWhitespace then
      if prevWs then collapseWsToDash true rest
      else '-' :: collapseWsToDash true rest
    else c :: collapseWsToDash false rest

/-- The dashboard's author tag: `quote.author.toLowerCase().replace(/\s+/g, '-')`. -/
def dashboardAuthorTag (author : String) : String :=
  String.mk (collapseWsToDash false (jsToLower author).data)

/-- Embeds `generateQuoteTags` of src/src/lib/botService.ts: configured hashtags as
`t` tags, quote tags not already configured as `t` tags, a dashed author
`t` tag, and the `client` tag.  (No `quote_id` tag is emitted here.) -/
def generateQuoteTags (quote : Quote) (config : BotConfig) : List (List String) :=
  (config.hashtags.map (fun tag => ["t", tag]))
    ++ ((quote.tags.filter (fun tag => !(config.hashtags.contains tag))).map
          (fun tag => ["t", tag]))
    ++ [["t", dashboardAuthorTag quote.author]]
    ++ [["client", "Cypherpunk Quotes Bot"]]

/-! ### Relay publication (src/bot/index.ts, publishToRelays)

A relay attempt (connect + publish raced against the 10 s timeout) either
resolves, or throws with a message — connect failures, relay rejections and
the timeout all surface as the thrown message.  The non-`Error` throw branch
(`'Unknown error'`) is already folded into the message. -/

/-- The settled outcome of one relay attempt, before classification. -/
inductive AttemptResult where
  | ok : AttemptResult
  | err (msg : String) : AttemptResult
deriving Repr, DecidableEq

/-- The `{ relay, success, error? }` record pushed onto `results`. -/
structure RelayOutcome where
  relay : String
  success : Bool
  error : Option String
deriving Repr, DecidableEq

/-- The duplicate test of the catch branch:
`message.toLowerCase().includes('duplicate')`. -/
def containsDuplicate (msg : String) : Bool :=
  jsIncludes (jsToLower msg) "duplicate"

/-- One iteration of the relay loop: a resolved attempt is a success; a
thrown message containing "duplicate" (case-insensitively) is reclassified
as success; any other thrown message is a failure carrying the message. -/
def classifyAttempt (att : String × AttemptResult) : RelayOutcome :=
  match att with
  | (url, AttemptResult.ok) => { relay := url, success := true, error := none }
  | (url, AttemptResult.err msg) =>
    if containsDuplicate msg then { relay := url, success := true, error := none }
    else { relay := url, success := false, error := some msg }

/-- The `results` array after the relay loop, in configured-list order. -/
def relayOutcomes (atts : List (String × AttemptResult)) : List RelayOutcome :=
  atts.map classifyAttempt

/-- Embeds `publishToRelays` of src/bot/index.ts: run the loop, count successes,
and throw `'Failed to publish to any relay'` when the count is zero. -/
def publishToRelays (atts : List (String × AttemptResult)) : Except String Unit :=
  let results := relayOutcomes atts
  let successCount := (results.filter (fun r => r.success)).length
  if successCount = 0 then Except.error "Failed to publish to any relay"
  else Except.ok ()

/-! ### Orchestration (src/bot/index.ts, main) and state persistence -/

/-- The post-publish state mutation of `main`: push the quote id, set the
timestamp, bump the counter, then `slice(-100)` when over 100 entries. -/
def mainUpdate (state : BotState) (quoteId : String) (now : Nat) : BotState :=
  let s1 : BotState :=
    { recentQuoteIds := state.recentQuoteIds ++ [quoteId]
      lastPostTimestamp := now
      totalPostsCount := state.totalPostsCount + 1 }
  if s1.recentQuoteIds.length > 100 then
    { s1 with recentQuoteIds := lastN 100 s1.recentQuoteIds }
  else s1

/-- The tail of `main` from `await publishToRelays` on, with the persisted
state threaded explicitly: a throw from `publishToRelays` propagates and
`saveState` never runs, so the persisted state stays as loaded; on success
the mutated state is saved. -/
def runMain (state : BotState) (quoteId : String)
    (atts : List (String × AttemptResult)) (now : Nat) :
    Except String Unit × BotState :=
  match publishToRelays atts with
  | Except.error e => (Except.error e, state)
  | Except.ok _ => (Except.ok (), mainUpdate state quoteId now)

/-- Embeds `recordPostedQuote` of src/src/lib/botService.ts (dashboard variant):
`[...state.recentQuoteIds, quoteId].slice(-50)`, timestamp, counter. -/
def recordPostedQuote (state : BotState) (quoteId : String) (now : Nat) : BotState :=
  { recentQuoteIds := lastN 50 (state.recentQuoteIds ++ [quoteId])
    lastPostTimestamp := now
    totalPostsCount := state.totalPostsCount + 1 }

/-! ### Private-key parsing (src/bot/index.ts, parsePrivateKey)

`nip19.decode` is an external library call, abstracted as a function
argument; its success values are the decoded `{ type, data }` record.
`Buffer.from(str, 'hex')` is Node semantics: consume hex digit pairs from
the left, stopping at the first character pair that is not two hex digits
(never throwing), so a malformed string yields a short (possibly empty)
buffer. -/

/-- A successful `nip19.decode` result: an `nsec` payload or some other type. -/
inductive Nip19Decoded where
  | nsec (data : List Nat) : Nip19Decoded
  | other (ty : String) : Nip19Decoded
deriving Repr, DecidableEq

/-- Hex digit value, as Node's hex decoder accepts it (both cases). -/
def hexVal (c : Char) : Option Nat :=
  if '0' ≤ c ∧ c ≤ '9' then some (c.toNat - '0'.toNat)
  else if 'a' ≤ c ∧ c ≤ 'f' then some (c.toNat - 'a'.toNat + 10)
  else if 'A' ≤ c ∧ c ≤ 'F' then some (c.toNat - 'A'.toNat + 10)
  else none

/-- Node `Buffer.from(str, 'hex')`: greedily decode leading hex pairs. -/
def bufferFromHex : List Char → List Nat
  | c1 :: c2 :: rest =>
    match hexVal c1, hexVal c2 with
    | some hi, some lo => (16 * hi + lo) :: bufferFromHex rest
    | _, _ => []
  | _ => []

/-- Embeds `parsePrivateKey` of src/bot/index.ts, with the `nip19.decode` library
call passed in as `decode` (an exception from it propagates). -/
def parsePrivateKey (decode : String → Except String Nip19Decoded)
    (keyStr : String) : Except String (List Nat) :=
  let k := jsTrim keyStr
  if jsStartsWith k "nsec1" then
    match decode k with
    | Except.error e => Except.error e
    | Except.ok (Nip19Decoded.nsec data) => Except.ok data
    | Except.ok (Nip19Decoded.other _) => Except.error "Invalid nsec key"
  else if k.length ≠ 64 then
    Except.error "Invalid hex private key length"
  else
    Except.ok (bufferFromHex k.data)

/-- Every character is a hex digit (what the claim calls "64 hex characters"). -/
def isHexString (s : String) : Bool :=
  s.data.all (fun c => (hexVal c).isSome)

/-! ### Concrete fixtures used by several claims -/

/-- The end-to-end fixture quote of the spec (§8). -/
def hughesQuote : Quote :=
  { id := "hughes-1993-001"
    text := "Privacy is necessary..."
    author := "Eric Hughes"
    source := some "A Cypherpunk's Manifesto"
    year := some 1993
    tags := ["privacy", "manifesto"] }

/-- A quote with an empty tag list (the dataset shape allows it). -/
def taglessQuote : Quote :=
  { id := "x", text := "T", author := "A", source := none, year := none, tags := [] }

/-- A 64-character string of non-hex characters. -/
def zString : String := String.mk (List.replicate 64 'z')

/-- A 64-character all-hex string. -/
def hex64String : String := String.mk (List.replicate 64 'a')

/-- A stand-in `nip19.decode` that always throws (for inputs where the
decoder is never reached). -/
def decodeFail : String → Except String Nip19Decoded :=
  fun _ => Except.error "nip19 decode unused"

/-- A stand-in `nip19.decode` returning a non-nsec type. -/
def decodeOther : String → Except String Nip19Decoded :=
  fun _ => Except.ok (Nip19Decoded.other "npub")

/-- A stand-in `nip19.decode` returning an nsec payload. -/
def decodeNsec : String → Except String Nip19Decoded :=
  fun _ => Except.ok (Nip19Decoded.nsec [1, 2])

/-! ### Spec-shaped composer (refinement targets for claim C10)

These definitions follow the wording of spec §4.2 — attribution suffix by
which of source/year is "present" (JS-truthy), hashtag line from a hashtag
set — and are compared against the source-derived composers. -/

/-- A hashtag line: each tag prefixed with `#`, space-separated. -/
def hashtagLine (ts : List String) : String :=
  String.intercalate " " (ts.map (fun t => "#" ++ t))

/-- The spec's attribution suffix: both present → `(source, year)`; only
source → `(source)`; only year → `(year)`; neither → nothing.  A present
source is a non-empty string, a present year a non-zero number (JS
truthiness). -/
def specAttributionSuffix (q : Quote) : String :=
  let src : Option String :=
    match q.source with
    | some s => if s = "" then none else some s
    | none => none
  let yr : Option Nat :=
    match q.year with
    | some y => if y = 0 then none else some y
    | none => none
  match src, yr with
  | some s, some y => " (" ++ s ++ ", " ++ toString y ++ ")"
  | some s, none => " (" ++ s ++ ")"
  | none, some y => " (" ++ toString y ++ ")"
  | none, none => ""

/-! ### Helper lemmas -/

theorem char_toNat_ofNat {n : Nat} (h : n.isValidChar) :
    (Char.ofNat n).toNat = n := by
  rw [Char.ofNat, dif_pos h]
  rfl

theorem char_toLower_idem (c : Char) :
    Char.toLower (Char.toLower c) = Char.toLower c := by
  by_cases h : c.toNat ≥ 65 ∧ c.toNat ≤ 90
  · have h1 : Char.toLower c = Char.ofNat (c.toNat + 32) := by
      simp only [Char.toLower]
      rw [if_pos h]
    have hv : (c.toNat + 32).isValidChar := Or.inl (by omega)
    have ht : (Char.ofNat (c.toNat + 32)).toNat = c.toNat + 32 := char_toNat_ofNat hv
    rw [h1]
    simp only [Char.toLower]
    rw [ht, if_neg (by omega)]
  · have h1 : Char.toLower c = c := by
      simp only [Char.toLower]
      rw [if_neg h]
    rw [h1, h1]

theorem lastN_suffix (n : Nat) (l : List α) : lastN n l <:+ l :=
  List.drop_suffix _ _

theorem length_lastN (n : Nat) (l : List α) :
    (lastN n l).length = min n l.length := by
  simp only [lastN, List.length_drop]
  omega

theorem lastN_of_le {n : Nat} {l : List α} (h : l.length ≤ n) : lastN n l = l := by
  simp only [lastN]
  rw [Nat.sub_eq_zero_of_le h, List.drop_zero]

theorem mainUpdate_recentQuoteIds (state : BotState) (quoteId : String) (now : Nat) :
    (mainUpdate state quoteId now).recentQuoteIds =
      lastN 100 (state.recentQuoteIds ++ [quoteId]) := by
  dsimp only [mainUpdate]
  by_cases h : (state.recentQuoteIds ++ [quoteId]).length > 100
  · rw [if_pos h]
  · rw [if_neg h]
    exact (lastN_of_le (n := 100) (l := state.recentQuoteIds ++ [quoteId])
      (by omega)).symm

theorem contains_eq_decide_mem (l : List String) (a : String) :
    l.contains a = decide (a ∈ l) := by
  simp [List.contains, List.elem_eq_mem]

theorem mainUpdate_lastPostTimestamp (state : BotState) (quoteId : String) (now : Nat) :
    (mainUpdate state quoteId now).lastPostTimestamp = now := by
  dsimp only [mainUpdate]
  by_cases h : (state.recentQuoteIds ++ [quoteId]).length > 100
  · rw [if_pos h]
  · rw [if_neg h]

theorem mainUpdate_totalPostsCount (state : BotState) (quoteId : String) (now : Nat) :
    (mainUpdate state quoteId now).totalPostsCount = state.totalPostsCount + 1 := by
  dsimp only [mainUpdate]
  by_cases h : (state.recentQuoteIds ++ [quoteId]).length > 100
  · rw [if_pos h]
  · rw [if_neg h]

theorem sourceYearSuffix_eq_spec (q : Quote) :
    sourceYearSuffix q.source q.year = specAttributionSuffix q := by
  rcases q with ⟨i, t, a, src, yr, ts⟩
  rcases src with _ | s <;> rcases yr with _ | y <;>
    simp only [sourceYearSuffix, specAttributionSuffix]
  · by_cases hy : y = 0 <;> simp [hy]
  · by_cases hs : s = "" <;> simp [hs]
  · by_cases hs : s = "" <;> by_cases hy : y = 0 <;> simp [hs, hy]

theorem bufferFromHex_length :
    ∀ (l : List Char), l.all (fun c => (hexVal c).isSome) = true →
      (bufferFromHex l).length = l.length / 2
  | [], _ => rfl
  | [c], h => by
    simp only [List.all_cons, List.all_nil, Bool.and_true] at h
    rw [Option.isSome_iff_exists] at h
    obtain ⟨hi, hh⟩ := h
    simp [bufferFromHex, hh]
  | c1 :: c2 :: rest, h => by
    simp only [List.all_cons, Bool.and_eq_true] at h
    obtain ⟨h1, h2, h3⟩ := h
    rw [Option.isSome_iff_exists] at h1 h2
    obtain ⟨hi, hh1⟩ := h1
    obtain ⟨lo, hh2⟩ := h2
    simp only [bufferFromHex, hh1, hh2, List.length_cons]
    rw [bufferFromHex_length rest (by simpa using h3)]
    omega

/-! ### Claim theorems -/

/-- C9: `normalizeHashtag` is idempotent; it lowercases (no ASCII uppercase
survives) and strips every hyphen and whitespace character; and
`normalize("open-source") == normalize("open source") == "opensource"`. -/
theorem normalizeHashtag_idempotent :
    (∀ x : String, normalizeHashtag (normalizeHashtag x) = normalizeHashtag x) ∧
    (∀ x : String, (normalizeHashtag x).data.all
        (fun c => !(c == '-' || c.isWhitespace)
          && !(65 ≤ c.toNat && c.toNat ≤ 90)) = true) ∧
    normalizeHashtag "open-source" = "opensource" ∧
    normalizeHashtag "open source" = "opensource" := by
  refine ⟨?_, ?_, by decide, by decide⟩
  · intro x
    simp only [normalizeHashtag]
    congr 1
    have hfix : ∀ c ∈ ((x.data.map Char.toLower).filter
        (fun c => !(c == '-' || c.isWhitespace))), Char.toLower c = c := by
      intro c hc
      have hc' : c ∈ x.data.map Char.toLower := (List.mem_filter.mp hc).1
      obtain ⟨b, _, rfl⟩ := List.mem_map.mp hc'
      exact char_toLower_idem b
    rw [List.map_congr_left hfix, List.map_id']
    rw [List.filter_eq_self.mpr (fun a ha => (List.mem_filter.mp ha).2)]
  · intro x
    simp only [normalizeHashtag]
    rw [List.all_eq_true]
    intro c hc
    have h1 := (List.mem_filter.mp hc).2
    have hc' : c ∈ x.data.map Char.toLower := (List.mem_filter.mp hc).1
    obtain ⟨b, _, rfl⟩ := List.mem_map.mp hc'
    rw [Bool.and_eq_true, h1]
    refine ⟨rfl, ?_⟩
    simp only [Bool.not_eq_true', Bool.and_eq_false_iff]
    by_cases hb : b.toNat ≥ 65 ∧ b.toNat ≤ 90
    · have : (Char.toLower b).toNat = b.toNat + 32 := by
        simp only [Char.toLower]
        rw [if_pos hb]
        exact char_toNat_ofNat (Or.inl (by omega))
      right
      simp only [decide_eq_false_iff_not]
      omega
    · have hlb : Char.toLower b = b := by
        simp only [Char.toLower]
        rw [if_neg hb]
      rw [hlb]
      rcases Nat.lt_or_ge b.toNat 65 with h65 | h65
      · left
        simp only [decide_eq_false_iff_not]
        omega
      · right
        simp only [decide_eq_false_iff_not]
        omega

/-- C8: on the Hughes fixture in quote-only mode, `formatQuote` produces
content ending in a blank line followed by `#privacy #manifesto`, and
`generateTags` emits the five expected tags. -/
theorem hughes_end_to_end :
    jsEndsWith (formatQuote hughesQuote) "\n\n#privacy #manifesto" = true ∧
    ["t", "privacy"] ∈ generateTags hughesQuote ∧
    ["t", "manifesto"] ∈ generateTags hughesQuote ∧
    ["t", "erichughes"] ∈ generateTags hughesQuote ∧
    ["quote_id", "hughes-1993-001"] ∈ generateTags hughesQuote ∧
    ["client", "Cypherpunk Quotes Bot"] ∈ generateTags hughesQuote := by
  decide

/-- C10 counterexample: for a quote with an empty tag list in quote-only
mode, `formatQuote` emits no trailing blank line and no hashtag line at all,
contradicting "is then always followed by two newlines and a hashtag
line". -/
theorem formatQuote_tagless_counterexample :
    formatQuote taglessQuote = "\"T\"\n\n— A" ∧
    jsEndsWith (formatQuote taglessQuote) "\n\n" = false ∧
    (formatQuote taglessQuote).data.all (fun c => c ≠ '#') = true := by
  decide

/-- C10 amended: both composers produce the quoted text, a blank line,
em-dash plus author, and the attribution suffix by presence; the quote-only
composer appends the blank line and hashtag line only when the quote's tag
list is non-empty, while the dashboard composer always appends them. -/
theorem composer_display_structure (q : Quote) (cfg : BotConfig) :
    formatQuoteForNostr q =
      "\"" ++ q.text ++ "\"" ++ "\n\n— " ++ q.author ++ specAttributionSuffix q ∧
    formatQuote q = formatQuoteForNostr q ++
      (if q.tags.isEmpty then ""
       else "\n\n" ++ hashtagLine (q.tags.map normalizeHashtag)) ∧
    formatQuoteWithHashtags q cfg = formatQuoteForNostr q ++
      "\n\n" ++ hashtagLine (dedupFirst (cfg.hashtags ++ q.tags.take 3)) := by
  refine ⟨?_, ?_, ?_⟩
  · rw [formatQuoteForNostr, sourceYearSuffix_eq_spec]
  · simp only [formatQuote, formatQuoteForNostr, hashtagLine]
    rcases hts : q.tags with _ | ⟨t0, ts⟩
    · simp [hts]
    · simp only [List.length_cons, List.isEmpty_cons, if_neg]
      simp only [Nat.zero_lt_succ, if_pos, String.append_assoc]
      simp
  · simp only [formatQuoteWithHashtags, formatQuoteForNostr, hashtagLine,
      String.append_assoc]

/-- C7 counterexample: the dashboard's `generateQuoteTags` emits no
`quote_id` tag, contradicting "in both composer variants ... the generated
event tag list contains the cross-reference tag". -/
theorem generateQuoteTags_no_quote_id :
    ["quote_id", "hughes-1993-001"] ∉
      generateQuoteTags hughesQuote DEFAULT_BOT_CONFIG ∧
    (generateQuoteTags hughesQuote DEFAULT_BOT_CONFIG).all
      (fun t => t.headD "" ≠ "quote_id") = true := by
  decide

/-- C7 amended: the scheduled bot script's `generateTags` always contains
the cross-reference tag `["quote_id", quote.id]`; the dashboard's
`generateQuoteTags` never emits a tag named `quote_id` (every tag it
produces is named `t` or `client`). -/
theorem quote_id_tag_presence (q : Quote) (cfg : BotConfig) :
    ["quote_id", q.id] ∈ generateTags q ∧
    ∀ t ∈ generateQuoteTags q cfg, t.headD "" = "t" ∨ t.headD "" = "client" := by
  constructor
  · simp [generateTags]
  · intro t ht
    simp only [generateQuoteTags, List.append_assoc, List.mem_append,
      List.mem_map, List.mem_singleton] at ht
    rcases ht with ⟨a, _, rfl⟩ | ⟨a, _, rfl⟩ | rfl | rfl <;> simp

/-- C7 amended, witness: instantiated on the Hughes fixture and the default
dashboard configuration. -/
theorem quote_id_tag_presence_witness :
    ["quote_id", "hughes-1993-001"] ∈ generateTags hughesQuote ∧
    (["t", "cypherpunk"].headD "" = "t" ∨ ["t", "cypherpunk"].headD "" = "client") :=
  ⟨(quote_id_tag_presence hughesQuote DEFAULT_BOT_CONFIG).1,
   (quote_id_tag_presence hughesQuote DEFAULT_BOT_CONFIG).2
     ["t", "cypherpunk"] (by decide)⟩

/-- C6 counterexample: a 64-character string of `'z'`s — neither 64 hex
characters nor an encoded secret key — is accepted by `parsePrivateKey`
rather than rejected: the hex branch checks only the length, and Node's
`Buffer.from(.., 'hex')` silently returns an empty buffer. -/
theorem parsePrivateKey_nonhex_accepted :
    (jsTrim zString).length = 64 ∧
    isHexString (jsTrim zString) = false ∧
    jsStartsWith (jsTrim zString) "nsec1" = false ∧
    parsePrivateKey decodeFail zString = Except.ok [] :=
  ⟨by decide, by decide, by decide, rfl⟩

/-- C6 amended: `parsePrivateKey` throws whenever the trimmed string is
neither an `nsec1`-prefixed string nor exactly 64 characters long (hex
validity is not checked); an `nsec1`-prefixed string decoding to a non-nsec
type throws the decode error; a decoded nsec returns its payload; and a
64-character input of actual hex digits returns the 32 parsed bytes. -/
theorem parsePrivateKey_branches (decode : String → Except String Nip19Decoded)
    (keyStr : String) :
    (jsStartsWith (jsTrim keyStr) "nsec1" = false → (jsTrim keyStr).length ≠ 64 →
      parsePrivateKey decode keyStr = Except.error "Invalid hex private key length") ∧
    (∀ ty, jsStartsWith (jsTrim keyStr) "nsec1" = true →
      decode (jsTrim keyStr) = Except.ok (Nip19Decoded.other ty) →
      parsePrivateKey decode keyStr = Except.error "Invalid nsec key") ∧
    (∀ data, jsStartsWith (jsTrim keyStr) "nsec1" = true →
      decode (jsTrim keyStr) = Except.ok (Nip19Decoded.nsec data) →
      parsePrivateKey decode keyStr = Except.ok data) ∧
    (jsStartsWith (jsTrim keyStr) "nsec1" = false → (jsTrim keyStr).length = 64 →
      isHexString (jsTrim keyStr) = true →
      parsePrivateKey decode keyStr = Except.ok (bufferFromHex (jsTrim keyStr).data) ∧
      (bufferFromHex (jsTrim keyStr).data).length = 32) := by
  refine ⟨?_, ?_, ?_, ?_⟩
  · intro hns hlen
    simp only [parsePrivateKey, hns, Bool.false_eq_true, if_false, if_pos hlen]
  · intro ty hns hdec
    simp only [parsePrivateKey, hns, if_true, hdec]
  · intro data hns hdec
    simp only [parsePrivateKey, hns, if_true, hdec]
  · intro hns hlen hhex
    have hlen' : (jsTrim keyStr).data.length = 64 := hlen
    have hhex' : (jsTrim keyStr).data.all (fun c => (hexVal c).isSome) = true := hhex
    refine ⟨?_, ?_⟩
    · simp only [parsePrivateKey, hns, Bool.false_eq_true, if_false]
      rw [if_neg (by omega)]
    · rw [bufferFromHex_length _ hhex', hlen']

/-- C6 amended, witness: each branch exercised on a concrete input. -/
theorem parsePrivateKey_branches_witness :
    parsePrivateKey decodeFail "abc" = Except.error "Invalid hex private key length" ∧
    parsePrivateKey decodeOther "nsec1xyz" = Except.error "Invalid nsec key" ∧
    parsePrivateKey decodeNsec "nsec1xyz" = Except.ok [1, 2] ∧
    parsePrivateKey decodeFail hex64String
      = Except.ok (bufferFromHex hex64String.data) :=
  ⟨(parsePrivateKey_branches decodeFail "abc").1 (by decide) (by decide),
   (parsePrivateKey_branches decodeOther "nsec1xyz").2.1 "npub" (by decide) rfl,
   (parsePrivateKey_branches decodeNsec "nsec1xyz").2.2.1 [1, 2] (by decide) rfl,
   by
    have h := ((parsePrivateKey_branches decodeFail hex64String).2.2.2
      (by decide) (by decide) (by decide)).1
    have he : jsTrim hex64String = hex64String := by decide
    rw [he] at h
    exact h⟩

/-- C1: `getRandomQuote` never returns a quote whose id is in the exclusion
set — the last 100 entries of the first-occurrence deduplication of the
local ids followed by the network-derived ids — unless the exclusion covers
the whole dataset, in which case it indexes the full unfiltered dataset. -/
theorem getRandomQuote_respects_exclusion (quotes : List Quote)
    (recentIds nostrQuoteIds : List String) (r : Nat) :
    ((∃ p ∈ quotes, p.id ∉ lastN 100 (dedupFirst (recentIds ++ nostrQuoteIds))) →
      ∀ q, getRandomQuote quotes recentIds nostrQuoteIds r = some q →
        q.id ∉ lastN 100 (dedupFirst (recentIds ++ nostrQuoteIds))) ∧
    ((∀ p ∈ quotes, p.id ∈ lastN 100 (dedupFirst (recentIds ++ nostrQuoteIds))) →
      getRandomQuote quotes recentIds nostrQuoteIds r = quotes[r % quotes.length]?) := by
  constructor
  · rintro ⟨p, hpmem, hpex⟩ q hq
    have hpavail : p ∈ quotes.filter
        (fun q => !((lastN 100 (dedupFirst (recentIds ++ nostrQuoteIds))).contains q.id)) := by
      rw [List.mem_filter]
      exact ⟨hpmem, by simp [contains_eq_decide_mem, hpex]⟩
    have hne := List.ne_nil_of_mem hpavail
    simp only [getRandomQuote] at hq
    rw [if_neg (by simpa [List.length_eq_zero] using hne)] at hq
    have hqavail := List.getElem?_mem hq
    have := (List.mem_filter.mp hqavail).2
    simpa [contains_eq_decide_mem] using this
  · intro hall
    have hempty : quotes.filter
        (fun q => !((lastN 100 (dedupFirst (recentIds ++ nostrQuoteIds))).contains q.id))
        = [] := by
      rw [List.filter_eq_nil_iff]
      intro a ha
      simp [contains_eq_decide_mem, hall a ha]
    simp only [getRandomQuote]
    rw [hempty]
    simp

/-- C1, witness: with a two-quote dataset, when only the first id is
excluded the second is returned; when both are excluded the selection falls
back to the full dataset. -/
theorem getRandomQuote_respects_exclusion_witness :
    getRandomQuote [⟨"a", "A", "x", none, none, []⟩, ⟨"b", "B", "y", none, none, []⟩]
      ["a"] [] 0 = some ⟨"b", "B", "y", none, none, []⟩ ∧
    (Quote.id ⟨"b", "B", "y", none, none, []⟩) ∉
      lastN 100 (dedupFirst (["a"] ++ [])) ∧
    getRandomQuote [⟨"a", "A", "x", none, none, []⟩] ["a"] [] 0
      = [(⟨"a", "A", "x", none, none, []⟩ : Quote)][0 % 1]? :=
  ⟨rfl,
   (getRandomQuote_respects_exclusion
      [⟨"a", "A", "x", none, none, []⟩, ⟨"b", "B", "y", none, none, []⟩] ["a"] [] 0).1
     ⟨⟨"b", "B", "y", none, none, []⟩, by decide, by decide⟩
     ⟨"b", "B", "y", none, none, []⟩ rfl,
   (getRandomQuote_respects_exclusion [⟨"a", "A", "x", none, none, []⟩] ["a"] [] 0).2
     (by decide)⟩

/-- C2: `publishToRelays` throws the run-fatal
`'Failed to publish to any relay'` exactly when no per-relay outcome is a
success, and returns normally exactly when at least one outcome is a
success. -/
theorem publishToRelays_zero_success_iff (atts : List (String × AttemptResult))
    (hne : atts ≠ []) :
    (publishToRelays atts = Except.error "Failed to publish to any relay" ↔
      ∀ o ∈ relayOutcomes atts, o.success = false) ∧
    (publishToRelays atts = Except.ok () ↔
      ∃ o ∈ relayOutcomes atts, o.success = true) := by
  clear hne
  have key : ((relayOutcomes atts).filter (fun r => r.success)).length = 0 ↔
      ∀ o ∈ relayOutcomes atts, o.success = false := by
    rw [List.length_eq_zero, List.filter_eq_nil_iff]
    constructor <;> intro h o ho
    · simpa using h o ho
    · simp [h o ho]
  have hpub : publishToRelays atts =
      (if ((relayOutcomes atts).filter (fun r => r.success)).length = 0
       then Except.error "Failed to publish to any relay" else Except.ok ()) := rfl
  by_cases hc : ((relayOutcomes atts).filter (fun r => r.success)).length = 0
  · rw [hpub, if_pos hc]
    constructor
    · exact iff_of_true rfl (key.mp hc)
    · refine iff_of_false (by simp) ?_
      rintro ⟨o, ho, hs⟩
      have hf := key.mp hc o ho
      rw [hs] at hf
      cases hf
  · rw [hpub, if_neg hc]
    constructor
    · refine iff_of_false (by simp) fun h => hc (key.mpr h)
    · refine iff_of_true rfl ?_
      have hnil : (relayOutcomes atts).filter (fun r => r.success) ≠ [] := by
        intro h
        exact hc (by rw [h]; rfl)
      obtain ⟨o, ho⟩ := List.exists_mem_of_ne_nil _ hnil
      have hmem := List.mem_filter.mp ho
      exact ⟨o, hmem.1, by simpa using hmem.2⟩

/-- C2, witness: the spec's partial-success scenario `[A fails, B succeeds,
C succeeds]` returns normally. -/
theorem publishToRelays_zero_success_iff_witness :
    publishToRelays [("wss://a", AttemptResult.err "boom"),
      ("wss://b", AttemptResult.ok), ("wss://c", AttemptResult.ok)]
      = Except.ok () :=
  (publishToRelays_zero_success_iff _ (by decide)).2.mpr
    ⟨{ relay := "wss://b", success := true, error := none }, by decide, rfl⟩

/-- C3: when `publishToRelays` throws, `main` propagates the error and the
persisted history is exactly the loaded state; when it returns, the saved
state appends the selected quote's id, truncates to the last 100, sets the
timestamp, and bumps the counter by one. -/
theorem runMain_history_semantics (state : BotState) (quoteId : String)
    (atts : List (String × AttemptResult)) (now : Nat) :
    (∀ e, publishToRelays atts = Except.error e →
      runMain state quoteId atts now = (Except.error e, state)) ∧
    (publishToRelays atts = Except.ok () →
      (runMain state quoteId atts now).1 = Except.ok () ∧
      (runMain state quoteId atts now).2.recentQuoteIds
        = lastN 100 (state.recentQuoteIds ++ [quoteId]) ∧
      (runMain state quoteId atts now).2.lastPostTimestamp = now ∧
      (runMain state quoteId atts now).2.totalPostsCount
        = state.totalPostsCount + 1) := by
  constructor
  · intro e he
    simp [runMain, he]
  · intro hok
    have hr : runMain state quoteId atts now
        = (Except.ok (), mainUpdate state quoteId now) := by
      simp [runMain, hok]
    rw [hr]
    exact ⟨rfl, mainUpdate_recentQuoteIds state quoteId now,
      mainUpdate_lastPostTimestamp state quoteId now,
      mainUpdate_totalPostsCount state quoteId now⟩

/-- C3, witness: a total-failure run leaves the zero state untouched; a
successful run on the same state records one post. -/
theorem runMain_history_semantics_witness :
    runMain ⟨[], 0, 0⟩ "q1" [("wss://a", AttemptResult.err "boom")] 5
      = (Except.error "Failed to publish to any relay", ⟨[], 0, 0⟩) ∧
    (runMain ⟨[], 0, 0⟩ "q1" [("wss://a", AttemptResult.ok)] 5).2.totalPostsCount
      = 1 :=
  ⟨(runMain_history_semantics ⟨[], 0, 0⟩ "q1"
      [("wss://a", AttemptResult.err "boom")] 5).1
      "Failed to publish to any relay" rfl,
   ((runMain_history_semantics ⟨[], 0, 0⟩ "q1"
      [("wss://a", AttemptResult.ok)] 5).2 rfl).2.2.2⟩

/-- C4: after either save, the retained recent-id list is a suffix of the
appended list of length `min CAP (previous length + 1)` — so at most CAP
entries, exactly CAP when the append exceeded it, oldest entries dropped,
order preserved (CAP = 100 for the bot script, 50 for the dashboard). -/
theorem history_cap_invariant (state : BotState) (quoteId : String) (now : Nat) :
    ((mainUpdate state quoteId now).recentQuoteIds.length ≤ 100 ∧
     (mainUpdate state quoteId now).recentQuoteIds.length
        = min 100 (state.recentQuoteIds.length + 1) ∧
     (mainUpdate state quoteId now).recentQuoteIds
        <:+ state.recentQuoteIds ++ [quoteId]) ∧
    ((recordPostedQuote state quoteId now).recentQuoteIds.length ≤ 50 ∧
     (recordPostedQuote state quoteId now).recentQuoteIds.length
        = min 50 (state.recentQuoteIds.length + 1) ∧
     (recordPostedQuote state quoteId now).recentQuoteIds
        <:+ state.recentQuoteIds ++ [quoteId]) := by
  have happ : (state.recentQuoteIds ++ [quoteId]).length
      = state.recentQuoteIds.length + 1 := by
    simp
  constructor
  · rw [mainUpdate_recentQuoteIds state quoteId now]
    refine ⟨?_, ?_, lastN_suffix _ _⟩
    · rw [length_lastN]
      exact Nat.min_le_left _ _
    · rw [length_lastN, happ]
  · refine ⟨?_, ?_, lastN_suffix _ _⟩
    · rw [show (recordPostedQuote state quoteId now).recentQuoteIds
          = lastN 50 (state.recentQuoteIds ++ [quoteId]) from rfl, length_lastN]
      exact Nat.min_le_left _ _
    · rw [show (recordPostedQuote state quoteId now).recentQuoteIds
          = lastN 50 (state.recentQuoteIds ++ [quoteId]) from rfl, length_lastN, happ]

/-- C5: a relay attempt that throws a message containing the
case-insensitive substring "duplicate" is recorded as a success (no error);
any other thrown message is recorded as a failure carrying the message. -/
theorem duplicate_error_classified (atts : List (String × AttemptResult))
    (i : Nat) (url msg : String)
    (h : atts[i]? = some (url, AttemptResult.err msg)) :
    (relayOutcomes atts)[i]? = some
      { relay := url
        success := containsDuplicate msg
        error := if containsDuplicate msg then none else some msg } := by
  simp only [relayOutcomes, List.getElem?_map, h, Option.map_some']
  by_cases hd : containsDuplicate msg <;> simp [classifyAttempt, hd]

/-- C5, witness: the spec's example message
`"event already exists (duplicate)"` is classified as success. -/
theorem duplicate_error_classified_witness :
    (relayOutcomes [("wss://a", AttemptResult.err "event already exists (duplicate)")])[0]?
      = some { relay := "wss://a", success := true, error := none } := by
  have h := duplicate_error_classified
    [("wss://a", AttemptResult.err "event already exists (duplicate)")]
    0 "wss://a" "event already exists (duplicate)" rfl
  have hc : containsDuplicate "event already exists (duplicate)" = true := by decide
  simpa [hc] using h

end CypherpunkBot
